import Mathlib

set_option linter.unusedVariables false

/-!
Shallow embedding of the relief-camp allocation server in
`src/models/camp.js` (the file-backed Express application).

The JSON collections `users.json`, `camps.json`, `selections.json` are
modelled as Lean lists inside a `DBState`; every route handler becomes a
pure function from a state (plus the decoded JWT payload and request
body) to a new state together with an HTTP outcome.  JavaScript's
in-place mutation through `Array.prototype.find` (`camp.beds -= 1`
followed by `writeCamps(camps)`) is modelled by updating the first list
element whose id matches, and `Array.prototype.splice` at a `findIndex`
result by removing the first matching element.
-/

/-- A camp record as stored in `camps.json`. -/
structure Camp where
  id : Int
  name : String
  beds : Int
  originalBeds : Int
  resources : List String
  contact : String
  ambulance : String
  type : String
  addedBy : String
  addedDate : String
deriving DecidableEq, Repr

/-- A user record as stored in `users.json`.  The role-specific fields
(`address`/`needs` for refugees, `skills`/`availability` for volunteers)
are optional object keys, modelled with `Option`. -/
structure User where
  id : Int
  name : String
  email : String
  password : String
  role : String
  age : Int
  contact : String
  registeredDate : String
  address : Option String
  needs : Option String
  skills : Option String
  availability : Option String
deriving DecidableEq, Repr

/-- A selection record as stored in `selections.json`. -/
structure Selection where
  id : Int
  userId : Int
  userEmail : String
  userName : String
  campId : Int
  campName : String
  selectedDate : String
deriving DecidableEq, Repr

/-- The three JSON collections of the server. -/
structure DBState where
  users : List User
  camps : List Camp
  selections : List Selection
deriving DecidableEq, Repr

/-- The decoded JWT payload (`req.user` after `authenticateToken`):
the fields signed in `jwt.sign({ id, email, role }, ...)`. -/
structure AuthUser where
  id : Int
  email : String
  role : String
deriving DecidableEq, Repr

/-- An HTTP error response: status code plus the `error` message body. -/
structure ApiErr where
  status : Nat
  msg : String
deriving DecidableEq, Repr

def onlyVolunteersAddErr : ApiErr := ⟨403, "Only volunteers can add camps"⟩

def nameBedsRequiredErr : ApiErr := ⟨400, "Camp name and beds are required"⟩

def onlyVolunteersDeleteErr : ApiErr := ⟨403, "Only volunteers can delete camps"⟩

def campNotFoundErr : ApiErr := ⟨404, "Camp not found"⟩

def cannotDeleteDefaultErr : ApiErr := ⟨403, "Cannot delete default camps"⟩

def onlyRefugeesSelectErr : ApiErr := ⟨403, "Only refugees can select camps"⟩

def alreadySelectedErr : ApiErr := ⟨400, "You already have a camp selected"⟩

def campFullErr : ApiErr := ⟨400, "This camp is full"⟩

def noSelectionFoundErr : ApiErr := ⟨404, "No selection found"⟩

def internalErr : ApiErr := ⟨500, "Internal server error"⟩

def missingFieldsErr : ApiErr := ⟨400, "Missing required fields"⟩

def invalidRoleErr : ApiErr := ⟨400, "Invalid role"⟩

def userExistsErr : ApiErr := ⟨400, "User already exists with this email"⟩

def emailPasswordRequiredErr : ApiErr := ⟨400, "Email and password required"⟩

def invalidCredentialsErr : ApiErr := ⟨401, "Invalid credentials"⟩

def userNotFoundErr : ApiErr := ⟨404, "User not found"⟩

/-- Mutating the camp object returned by `camps.find(...)` and then
writing the whole array back: the first camp whose id matches is
replaced by `f` applied to it, the rest of the array is unchanged. -/
def updateFirstCamp : List Camp → Int → (Camp → Camp) → List Camp
  | [], _, _ => []
  | c :: rest, cid, f =>
      if c.id = cid then f c :: rest else c :: updateFirstCamp rest cid f

/-- `camps.splice(camps.findIndex(c => c.id === campId), 1)`: remove the
first camp whose id matches. -/
def removeFirstCamp : List Camp → Int → List Camp
  | [], _ => []
  | c :: rest, cid => if c.id = cid then rest else c :: removeFirstCamp rest cid

/-- `selections.splice(selections.findIndex(s => s.userId === uid), 1)`:
remove the first selection owned by the given user. -/
def removeFirstSelection : List Selection → Int → List Selection
  | [], _ => []
  | s :: rest, uid =>
      if s.userId = uid then rest else s :: removeFirstSelection rest uid

/-- `Math.max(...camps.map(c => c.id))` over a non-empty array. -/
def maxCampId : List Camp → Int
  | [] => 0
  | c :: rest =>
      match rest with
      | [] => c.id
      | _ :: _ => max c.id (maxCampId rest)

/-- `camps.length > 0 ? Math.max(...camps.map(c => c.id)) + 1 : 1`. -/
def newCampId (camps : List Camp) : Int :=
  match camps with
  | [] => 1
  | _ :: _ => maxCampId camps + 1

/-- `POST /api/camps/:id/select` (refugees only).  The numeric request
body values arrive pre-parsed; beds are decremented on the found camp
and the camps file is written *before* the `users.find` lookup, so a
caller whose id is absent from `users.json` crashes on `user.name`
(caught as a 500) with the decrement already persisted. -/
def selectCamp (st : DBState) (caller : AuthUser) (campId : Int) (now : String) :
    DBState × Except ApiErr Selection :=
  if caller.role ≠ "refugee" then (st, .error onlyRefugeesSelectErr)
  else
    match st.camps.find? (fun c => c.id == campId) with
    | none => (st, .error campNotFoundErr)
    | some camp =>
      if (st.selections.find? (fun s => s.userId == caller.id)).isSome then
        (st, .error alreadySelectedErr)
      else if camp.beds ≤ 0 then (st, .error campFullErr)
      else
        let camps' := updateFirstCamp st.camps campId (fun c => { c with beds := c.beds - 1 })
        match st.users.find? (fun u => u.id == caller.id) with
        | none => ({ st with camps := camps' }, .error internalErr)
        | some user =>
          let newSelection : Selection :=
            { id := st.selections.length + 1
              userId := caller.id
              userEmail := caller.email
              userName := user.name
              campId := campId
              campName := camp.name
              selectedDate := now }
          ({ st with camps := camps',
                     selections := st.selections ++ [newSelection] },
           .ok newSelection)

/-- `DELETE /api/selections/my`. -/
def cancelSelection (st : DBState) (caller : AuthUser) :
    DBState × Except ApiErr Unit :=
  match st.selections.find? (fun s => s.userId == caller.id) with
  | none => (st, .error noSelectionFoundErr)
  | some selection =>
    let camps' :=
      match st.camps.find? (fun c => c.id == selection.campId) with
      | some _ =>
          updateFirstCamp st.camps selection.campId (fun c => { c with beds := c.beds + 1 })
      | none => st.camps
    ({ st with camps := camps',
               selections := removeFirstSelection st.selections caller.id },
     .ok ())

/-- `resources ? resources.split(",").map(r => r.trim()).filter(r => r)
: ["Basic supplies"]` (the empty string is falsy). -/
def parseResources (resources : String) : List String :=
  if resources = "" then ["Basic supplies"]
  else ((resources.splitOn ",").map String.trim).filter (fun r => r ≠ "")

/-- `POST /api/camps` (volunteers only).  `!name || !beds` rejects the
empty name and a bed count of `0` (both falsy); `Number.parseInt` on an
integer body value is the identity.  `volunteer.name` throws before any
write when the caller's id is absent from `users.json` (caught as 500
with the state unchanged). -/
def addCamp (st : DBState) (caller : AuthUser) (name : String) (beds : Int)
    (resources contact ambulance now : String) :
    DBState × Except ApiErr Camp :=
  if caller.role ≠ "volunteer" then (st, .error onlyVolunteersAddErr)
  else if name = "" ∨ beds = 0 then (st, .error nameBedsRequiredErr)
  else
    match st.users.find? (fun u => u.id == caller.id) with
    | none => (st, .error internalErr)
    | some volunteer =>
      let newCamp : Camp :=
        { id := newCampId st.camps
          name := name
          beds := beds
          originalBeds := beds
          resources := parseResources resources
          contact := contact
          ambulance := if ambulance = "" then "No" else ambulance
          type := "volunteer-added"
          addedBy := volunteer.name
          addedDate := now }
      ({ st with camps := st.camps ++ [newCamp] }, .ok newCamp)

/-- `DELETE /api/camps/:id` (volunteers only, non-default camps). -/
def deleteCamp (st : DBState) (caller : AuthUser) (campId : Int) :
    DBState × Except ApiErr Unit :=
  if caller.role ≠ "volunteer" then (st, .error onlyVolunteersDeleteErr)
  else
    match st.camps.find? (fun c => c.id == campId) with
    | none => (st, .error campNotFoundErr)
    | some camp =>
      if camp.type = "default" then (st, .error cannotDeleteDefaultErr)
      else
        ({ st with camps := removeFirstCamp st.camps campId,
                   selections := st.selections.filter (fun s => s.campId ≠ campId) },
         .ok ())

/-- A JSON object sent to the client, as a key/value list in field
order; used to model `const { password: _, ...userResponse } = user`. -/
def objRemove (key : String) (obj : List (String × String)) : List (String × String) :=
  obj.filter (fun kv => kv.1 ≠ key)

/-- The JSON object written to `users.json` for a user record: optional
keys are present only when set. -/
def userToObj (u : User) : List (String × String) :=
  [("id", toString u.id), ("name", u.name), ("email", u.email),
   ("password", u.password), ("role", u.role), ("age", toString u.age),
   ("contact", u.contact), ("registeredDate", u.registeredDate)]
  ++ (match u.address with | some a => [("address", a)] | none => [])
  ++ (match u.needs with | some n => [("needs", n)] | none => [])
  ++ (match u.skills with | some s => [("skills", s)] | none => [])
  ++ (match u.availability with | some a => [("availability", a)] | none => [])

/-- `POST /api/register`.  `hashedPassword` is the result of the
external `bcrypt.hash(password, 10)` call; `now` the current ISO
timestamp.  The response's user object is returned as a key/value
list. -/
def register (st : DBState) (name email password role : String) (age : Int)
    (contact address needs skills availability : String)
    (hashedPassword now : String) :
    DBState × Except ApiErr (List (String × String)) :=
  if name = "" ∨ email = "" ∨ password = "" ∨ role = "" then
    (st, .error missingFieldsErr)
  else if ¬ (role = "volunteer" ∨ role = "refugee") then (st, .error invalidRoleErr)
  else if (st.users.find? (fun u => u.email == email)).isSome then
    (st, .error userExistsErr)
  else
    let newUser : User :=
      { id := st.users.length + 1
        name := name
        email := email
        password := hashedPassword
        role := role
        age := age
        contact := contact
        registeredDate := now
        address := if role = "refugee" then some address else none
        needs := if role = "refugee" then some needs else none
        skills := if role = "volunteer" then some skills else none
        availability := if role = "volunteer" then some availability else none }
    ({ st with users := st.users ++ [newUser] },
     .ok (objRemove "password" (userToObj newUser)))

/-- `POST /api/login`.  `compare` is the external
`bcrypt.compare(password, user.password)` oracle. -/
def login (st : DBState) (email password : String)
    (compare : String → String → Bool) :
    DBState × Except ApiErr (List (String × String)) :=
  if email = "" ∨ password = "" then (st, .error emailPasswordRequiredErr)
  else
    match st.users.find? (fun u => u.email == email) with
    | none => (st, .error invalidCredentialsErr)
    | some user =>
      if ¬ compare password user.password then (st, .error invalidCredentialsErr)
      else (st, .ok (objRemove "password" (userToObj user)))

/-- `GET /api/verify`. -/
def verify (st : DBState) (caller : AuthUser) :
    Except ApiErr (List (String × String)) :=
  match st.users.find? (fun u => u.id == caller.id) with
  | none => .error userNotFoundErr
  | some user => .ok (objRemove "password" (userToObj user))

/-- The AllocationEngine operation alphabet: the four state-mutating
routes, each carrying its decoded token and request data. -/
inductive Op where
  | select (caller : AuthUser) (campId : Int) (now : String)
  | cancel (caller : AuthUser)
  | add (caller : AuthUser) (name : String) (beds : Int)
      (resources contact ambulance now : String)
  | delete (caller : AuthUser) (campId : Int)
deriving DecidableEq, Repr

/-- The state left behind by one request (errors included: the partial
writes an aborted handler already performed are kept). -/
def applyOp (st : DBState) : Op → DBState
  | .select caller campId now => (selectCamp st caller campId now).1
  | .cancel caller => (cancelSelection st caller).1
  | .add caller name beds resources contact ambulance now =>
      (addCamp st caller name beds resources contact ambulance now).1
  | .delete caller campId => (deleteCamp st caller campId).1

/-- Run a sequence of requests. -/
def runOps (st : DBState) : List Op → DBState
  | [] => st
  | op :: rest => runOps (applyOp st op) rest

/-- Number of active selections referencing a given camp id. -/
def activeSelCount (sels : List Selection) (cid : Int) : Nat :=
  (sels.filter (fun s => s.campId == cid)).length

/-- The cross-entity invariant of §3: every camp's current bed count is
its original bed count minus the number of active selections
referencing it. -/
def campInvariant (st : DBState) : Prop :=
  ∀ c ∈ st.camps, c.beds = c.originalBeds - (activeSelCount st.selections c.id : Int)

/-- §8 invariant: `0 ≤ current_bed_count ≤ original_bed_count`. -/
def bedsInRange (st : DBState) : Prop :=
  ∀ c ∈ st.camps, 0 ≤ c.beds ∧ c.beds ≤ c.originalBeds

/-- Lower half of the bed-count range invariant. -/
def bedsNonneg (st : DBState) : Prop := ∀ c ∈ st.camps, 0 ≤ c.beds

/-- No two camps share an id. -/
def distinctCampIds (st : DBState) : Prop := (st.camps.map Camp.id).Nodup

/-- Every active selection references a camp present in the store. -/
def selectionsHaveCamps (st : DBState) : Prop :=
  ∀ s ∈ st.selections, s.campId ∈ st.camps.map Camp.id

/-- The auxiliary state well-formedness under which the bed-count
ledger is inductive. -/
def goodState (st : DBState) : Prop :=
  campInvariant st ∧ distinctCampIds st ∧ selectionsHaveCamps st

/-- At most one active selection per user. -/
def userIdsNodup (st : DBState) : Prop :=
  (st.selections.map Selection.userId).Nodup

/-- A `select` request's caller is a registered user (as every caller
holding a signed token is); other requests are unconstrained. -/
def selectCallerOk (users : List User) : Op → Prop
  | .select c _ _ => ∃ u ∈ users, u.id = c.id
  | _ => True

/-- An `add` request's bed count is non-negative; other requests are
unconstrained. -/
def addBedsOk : Op → Prop
  | .add _ _ beds _ _ _ _ => 0 ≤ beds
  | _ => True

instance (st : DBState) : Decidable (campInvariant st) :=
  inferInstanceAs (Decidable (∀ c ∈ st.camps,
    c.beds = c.originalBeds - (activeSelCount st.selections c.id : Int)))

instance (st : DBState) : Decidable (bedsInRange st) :=
  inferInstanceAs (Decidable (∀ c ∈ st.camps, 0 ≤ c.beds ∧ c.beds ≤ c.originalBeds))

instance (st : DBState) : Decidable (bedsNonneg st) :=
  inferInstanceAs (Decidable (∀ c ∈ st.camps, 0 ≤ c.beds))

instance (st : DBState) : Decidable (distinctCampIds st) :=
  inferInstanceAs (Decidable (st.camps.map Camp.id).Nodup)

instance (st : DBState) : Decidable (selectionsHaveCamps st) :=
  inferInstanceAs (Decidable (∀ s ∈ st.selections, s.campId ∈ st.camps.map Camp.id))

instance (st : DBState) : Decidable (goodState st) :=
  inferInstanceAs (Decidable (campInvariant st ∧ distinctCampIds st ∧ selectionsHaveCamps st))

instance (st : DBState) : Decidable (userIdsNodup st) :=
  inferInstanceAs (Decidable (st.selections.map Selection.userId).Nodup)

instance (users : List User) (op : Op) : Decidable (selectCallerOk users op) :=
  match op with
  | .select c _ _ => inferInstanceAs (Decidable (∃ u ∈ users, u.id = c.id))
  | .cancel _ => .isTrue trivial
  | .add _ _ _ _ _ _ _ => .isTrue trivial
  | .delete _ _ => .isTrue trivial

instance (op : Op) : Decidable (addBedsOk op) :=
  match op with
  | .select _ _ _ => .isTrue trivial
  | .cancel _ => .isTrue trivial
  | .add _ _ beds _ _ _ _ => inferInstanceAs (Decidable (0 ≤ beds))
  | .delete _ _ => .isTrue trivial

/-! ### Concrete fixtures used to evaluate the model on explicit inputs -/

/-- A registered volunteer. -/
def veraUser : User :=
  { id := 1, name := "Vera", email := "vera@example.com", password := "hashedpw1"
    role := "volunteer", age := 30, contact := "111", registeredDate := "d0"
    address := none, needs := none, skills := some "logistics"
    availability := some "weekends" }

/-- A registered refugee. -/
def rinaUser : User :=
  { id := 2, name := "Rina", email := "rina@example.com", password := "hashedpw2"
    role := "refugee", age := 25, contact := "222", registeredDate := "d0"
    address := some "old town", needs := some "shelter", skills := none
    availability := none }

/-- A second registered refugee. -/
def raviUser : User :=
  { id := 3, name := "Ravi", email := "ravi@example.com", password := "hashedpw3"
    role := "refugee", age := 40, contact := "333", registeredDate := "d0"
    address := some "river side", needs := some "shelter", skills := none
    availability := none }

/-- A third registered refugee. -/
def remaUser : User :=
  { id := 4, name := "Rema", email := "rema@example.com", password := "hashedpw4"
    role := "refugee", age := 35, contact := "444", registeredDate := "d0"
    address := some "hill side", needs := some "shelter", skills := none
    availability := none }

/-- The volunteer's decoded token. -/
def veraAuth : AuthUser := { id := 1, email := "vera@example.com", role := "volunteer" }

/-- The refugees' decoded tokens. -/
def rinaAuth : AuthUser := { id := 2, email := "rina@example.com", role := "refugee" }

def raviAuth : AuthUser := { id := 3, email := "ravi@example.com", role := "refugee" }

def remaAuth : AuthUser := { id := 4, email := "rema@example.com", role := "refugee" }

/-- A seeded default camp. -/
def centralCamp : Camp :=
  { id := 1, name := "Central School Grounds", beds := 24, originalBeds := 24
    resources := ["Food", "Water", "Medical Aid", "Blankets"], contact := "+91 98765 43210"
    ambulance := "Yes", type := "default", addedBy := "System", addedDate := "d0" }

/-- A volunteer-added camp. -/
def hallCamp : Camp :=
  { id := 2, name := "Community Hall", beds := 12, originalBeds := 12
    resources := ["Food", "Water"], contact := "+91 98765 11223"
    ambulance := "Nearby", type := "volunteer-added", addedBy := "Vera", addedDate := "d0" }

/-- A selection that references camp id 1 even though no camp exists. -/
def danglingSelection : Selection :=
  { id := 1, userId := 2, userEmail := "rina@example.com", userName := "Rina"
    campId := 1, campName := "Ghost Camp", selectedDate := "d0" }

/-- Rina's selection of the central camp. -/
def rinaSelection : Selection :=
  { id := 1, userId := 2, userEmail := "rina@example.com", userName := "Rina"
    campId := 1, campName := "Central School Grounds", selectedDate := "t1" }

/-- A state whose camps list is empty but whose selections list has a
dangling entry: the cross-entity invariant holds vacuously. -/
def dangleState : DBState :=
  { users := [veraUser], camps := [], selections := [danglingSelection] }

/-- A state with one volunteer and no camps or selections. -/
def emptyCampState : DBState :=
  { users := [veraUser], camps := [], selections := [] }

/-- A well-formed state: registered users, both camps, no selections. -/
def baseState : DBState :=
  { users := [veraUser, rinaUser, raviUser, remaUser]
    camps := [centralCamp, hallCamp]
    selections := [] }

/-- `baseState` after Rina selects camp 1. -/
def baseStateAfterSelect : DBState :=
  { users := [veraUser, rinaUser, raviUser, remaUser]
    camps := [{ centralCamp with beds := 23 }, hallCamp]
    selections := [rinaSelection] }

/-! ### Helper lemmas about the list-manipulation primitives -/

theorem updateFirstCamp_map_id (l : List Camp) (cid : Int) (f : Camp → Camp)
    (hf : ∀ c, (f c).id = c.id) :
    (updateFirstCamp l cid f).map Camp.id = l.map Camp.id := by
  induction l with
  | nil => rfl
  | cons c rest ih =>
    unfold updateFirstCamp
    by_cases h : c.id = cid
    · simp [h, hf]
    · simp [h, ih]

theorem updateFirstCamp_mem_of_find {l : List Camp} {cid : Int} {f : Camp → Camp} {c0 : Camp}
    (hf : l.find? (fun c => c.id == cid) = some c0) :
    ∀ c' ∈ updateFirstCamp l cid f, c' = f c0 ∨ c' ∈ l := by
  induction l with
  | nil => simp [List.find?] at hf
  | cons c rest ih =>
    unfold updateFirstCamp
    by_cases h : c.id = cid
    · have hc0 : c0 = c := by
        simp [List.find?_cons, h] at hf
        exact hf.symm
      intro c' hc'
      rw [if_pos h] at hc'
      rcases List.mem_cons.mp hc' with h1 | h1
      · exact Or.inl (by rw [h1, hc0])
      · exact Or.inr (List.mem_cons_of_mem _ h1)
    · have hf' : rest.find? (fun c => c.id == cid) = some c0 := by
        simpa [List.find?_cons, h] using hf
      intro c' hc'
      simp only [if_neg h] at hc'
      rcases List.mem_cons.mp hc' with h1 | h1
      · exact Or.inr (by rw [h1]; exact List.mem_cons_self _ _)
      · rcases ih hf' c' h1 with h2 | h2
        · exact Or.inl h2
        · exact Or.inr (List.mem_cons_of_mem _ h2)

theorem updateFirstCamp_mem {l : List Camp} {cid : Int} {f : Camp → Camp} {c0 : Camp}
    (hn : (l.map Camp.id).Nodup)
    (hf : l.find? (fun c => c.id == cid) = some c0) :
    ∀ c' ∈ updateFirstCamp l cid f, c' = f c0 ∨ (c' ∈ l ∧ c'.id ≠ cid) := by
  induction l with
  | nil => simp [List.find?] at hf
  | cons c rest ih =>
    unfold updateFirstCamp
    by_cases h : c.id = cid
    · have hc0 : c0 = c := by
        simp [List.find?_cons, h] at hf
        exact hf.symm
      intro c' hc'
      rw [if_pos h] at hc'
      rcases List.mem_cons.mp hc' with h1 | h1
      · exact Or.inl (by rw [h1, hc0])
      · refine Or.inr ⟨List.mem_cons_of_mem _ h1, ?_⟩
        have : c'.id ∈ rest.map Camp.id := List.mem_map_of_mem _ h1
        intro heq
        rw [List.map_cons, List.nodup_cons] at hn
        exact hn.1 (by rw [h, ← heq]; exact this)
    · have hf' : rest.find? (fun c => c.id == cid) = some c0 := by
        simpa [List.find?_cons, h] using hf
      intro c' hc'
      simp only [if_neg h] at hc'
      rcases List.mem_cons.mp hc' with h1 | h1
      · exact Or.inr ⟨by rw [h1]; exact List.mem_cons_self _ _, by rw [h1]; exact h⟩
      · rw [List.map_cons, List.nodup_cons] at hn
        rcases ih hn.2 hf' c' h1 with h2 | h2
        · exact Or.inl h2
        · exact Or.inr ⟨List.mem_cons_of_mem _ h2.1, h2.2⟩

theorem updateFirstCamp_find {l : List Camp} {cid : Int} {f : Camp → Camp} {c0 : Camp}
    (hf : l.find? (fun c => c.id == cid) = some c0)
    (hid : (f c0).id = c0.id) :
    (updateFirstCamp l cid f).find? (fun c => c.id == cid) = some (f c0) := by
  induction l with
  | nil => simp [List.find?] at hf
  | cons c rest ih =>
    unfold updateFirstCamp
    by_cases h : c.id = cid
    · have hc0 : c0 = c := by
        simp [List.find?_cons, h] at hf
        exact hf.symm
      subst hc0
      simp [List.find?_cons, hid, h]
    · have hf' : rest.find? (fun c => c.id == cid) = some c0 := by
        simpa [List.find?_cons, h] using hf
      simp [List.find?_cons, h, ih hf']

theorem updateFirstCamp_updateFirstCamp (l : List Camp) (cid : Int) (f g : Camp → Camp)
    (hf : ∀ c, (f c).id = c.id) :
    updateFirstCamp (updateFirstCamp l cid f) cid g
      = updateFirstCamp l cid (fun c => g (f c)) := by
  induction l with
  | nil => rfl
  | cons c rest ih =>
    by_cases h : c.id = cid
    · simp [updateFirstCamp, h, hf]
    · simp [updateFirstCamp, h, ih]

theorem updateFirstCamp_of_eq_id (l : List Camp) (cid : Int) (f : Camp → Camp)
    (hf : ∀ c, f c = c) :
    updateFirstCamp l cid f = l := by
  induction l with
  | nil => rfl
  | cons c rest ih =>
    by_cases h : c.id = cid
    · simp [updateFirstCamp, h, hf]
    · simp [updateFirstCamp, h, ih]

theorem removeFirstSelection_sublist (l : List Selection) (uid : Int) :
    (removeFirstSelection l uid).Sublist l := by
  induction l with
  | nil => exact List.Sublist.refl _
  | cons s rest ih =>
    unfold removeFirstSelection
    by_cases h : s.userId = uid
    · rw [if_pos h]
      exact List.sublist_cons_self _ _
    · rw [if_neg h]
      exact ih.cons₂ s

theorem removeFirstSelection_count {l : List Selection} {uid : Int} {s0 : Selection}
    (hf : l.find? (fun s => s.userId == uid) = some s0) (cid : Int) :
    (l.filter (fun s => s.campId == cid)).length
      = ((removeFirstSelection l uid).filter (fun s => s.campId == cid)).length
        + (if s0.campId = cid then 1 else 0) := by
  induction l with
  | nil => simp [List.find?] at hf
  | cons s rest ih =>
    unfold removeFirstSelection
    by_cases h : s.userId = uid
    · have hs0 : s0 = s := by
        simp [List.find?_cons, h] at hf
        exact hf.symm
      subst hs0
      rw [if_pos h]
      by_cases hc : s0.campId = cid
      · simp [List.filter_cons, hc]
      · simp [List.filter_cons, hc]
    · have hf' : rest.find? (fun s => s.userId == uid) = some s0 := by
        simpa [List.find?_cons, h] using hf
      rw [if_neg h]
      by_cases hc : s.campId = cid
      · simp only [List.filter_cons, hc]
        simp only [beq_self_eq_true, if_pos]
        simp [List.length_cons, ih hf']
        omega
      · simp only [List.filter_cons]
        have : (s.campId == cid) = false := by simp [hc]
        simp only [this, cond_false]
        exact ih hf'

theorem removeFirstSelection_length {l : List Selection} {uid : Int} {s0 : Selection}
    (hf : l.find? (fun s => s.userId == uid) = some s0) :
    (removeFirstSelection l uid).length + 1 = l.length := by
  induction l with
  | nil => simp [List.find?] at hf
  | cons s rest ih =>
    unfold removeFirstSelection
    by_cases h : s.userId = uid
    · rw [if_pos h]
      simp
    · have hf' : rest.find? (fun s => s.userId == uid) = some s0 := by
        simpa [List.find?_cons, h] using hf
      rw [if_neg h]
      simp only [List.length_cons]
      rw [← ih hf']

theorem removeFirstSelection_append_of_none {l : List Selection} {uid : Int} {s : Selection}
    (hf : l.find? (fun t => t.userId == uid) = none) (hs : s.userId = uid) :
    removeFirstSelection (l ++ [s]) uid = l := by
  induction l with
  | nil => simp [removeFirstSelection, hs]
  | cons a rest ih =>
    have ha : ¬ a.userId = uid := by
      intro h
      simp [List.find?_cons, h] at hf
    have hf' : rest.find? (fun t => t.userId == uid) = none := by
      simpa [List.find?_cons, ha] using hf
    simp only [List.cons_append]
    unfold removeFirstSelection
    rw [if_neg ha, ih hf']

theorem removeFirstSelection_find_none {l : List Selection} {uid : Int}
    (hn : (l.map Selection.userId).Nodup) :
    (removeFirstSelection l uid).find? (fun s => s.userId == uid) = none := by
  induction l with
  | nil => simp [removeFirstSelection, List.find?]
  | cons s rest ih =>
    rw [List.map_cons, List.nodup_cons] at hn
    unfold removeFirstSelection
    by_cases h : s.userId = uid
    · rw [if_pos h]
      rw [List.find?_eq_none]
      intro t ht
      have : t.userId ∈ rest.map Selection.userId := List.mem_map_of_mem _ ht
      simp only [beq_iff_eq]
      intro heq
      exact hn.1 (by rw [h, ← heq]; exact this)
    · rw [if_neg h]
      have : (s.userId == uid) = false := by simp [h]
      simp [List.find?_cons, this, ih hn.2]

theorem removeFirstCamp_sublist (l : List Camp) (cid : Int) :
    (removeFirstCamp l cid).Sublist l := by
  induction l with
  | nil => exact List.Sublist.refl _
  | cons c rest ih =>
    unfold removeFirstCamp
    by_cases h : c.id = cid
    · rw [if_pos h]
      exact List.sublist_cons_self _ _
    · rw [if_neg h]
      exact ih.cons₂ c

theorem removeFirstCamp_mem {l : List Camp} {cid : Int}
    (hn : (l.map Camp.id).Nodup) :
    ∀ c' ∈ removeFirstCamp l cid, c' ∈ l ∧ c'.id ≠ cid := by
  induction l with
  | nil => simp [removeFirstCamp]
  | cons c rest ih =>
    rw [List.map_cons, List.nodup_cons] at hn
    unfold removeFirstCamp
    by_cases h : c.id = cid
    · rw [if_pos h]
      intro c' hc'
      refine ⟨List.mem_cons_of_mem _ hc', ?_⟩
      have : c'.id ∈ rest.map Camp.id := List.mem_map_of_mem _ hc'
      intro heq
      exact hn.1 (by rw [h, ← heq]; exact this)
    · rw [if_neg h]
      intro c' hc'
      rcases List.mem_cons.mp hc' with h1 | h1
      · exact ⟨by rw [h1]; exact List.mem_cons_self _ _, by rw [h1]; exact h⟩
      · rcases ih hn.2 c' h1 with ⟨h2, h3⟩
        exact ⟨List.mem_cons_of_mem _ h2, h3⟩

theorem removeFirstCamp_map_mem {l : List Camp} {cid x : Int}
    (hx : x ∈ l.map Camp.id) (hne : x ≠ cid) :
    x ∈ (removeFirstCamp l cid).map Camp.id := by
  induction l with
  | nil => simp at hx
  | cons c rest ih =>
    unfold removeFirstCamp
    rw [List.map_cons, List.mem_cons] at hx
    by_cases h : c.id = cid
    · rw [if_pos h]
      rcases hx with h1 | h1
      · exact absurd (by rw [h1, h]) hne
      · exact h1
    · rw [if_neg h]
      rw [List.map_cons, List.mem_cons]
      rcases hx with h1 | h1
      · exact Or.inl h1
      · exact Or.inr (ih h1)

theorem removeFirstCamp_find_none {l : List Camp} {cid : Int}
    (hn : (l.map Camp.id).Nodup) :
    (removeFirstCamp l cid).find? (fun c => c.id == cid) = none := by
  induction l with
  | nil => simp [removeFirstCamp, List.find?]
  | cons c rest ih =>
    rw [List.map_cons, List.nodup_cons] at hn
    unfold removeFirstCamp
    by_cases h : c.id = cid
    · rw [if_pos h]
      rw [List.find?_eq_none]
      intro t ht
      have : t.id ∈ rest.map Camp.id := List.mem_map_of_mem _ ht
      simp only [beq_iff_eq]
      intro heq
      exact hn.1 (by rw [h, ← heq]; exact this)
    · rw [if_neg h]
      have : (c.id == cid) = false := by simp [h]
      simp [List.find?_cons, this, ih hn.2]

theorem le_maxCampId {l : List Camp} {c : Camp} (h : c ∈ l) :
    c.id ≤ maxCampId l := by
  induction l with
  | nil => simp at h
  | cons a rest ih =>
    rcases List.mem_cons.mp h with h1 | h1
    · subst h1
      cases rest with
      | nil => simp [maxCampId]
      | cons b t => simp [maxCampId]
    · cases rest with
      | nil => simp at h1
      | cons b t =>
        have := ih h1
        calc c.id ≤ maxCampId (b :: t) := this
          _ ≤ maxCampId (a :: b :: t) := by simp [maxCampId]

theorem newCampId_not_mem (l : List Camp) : newCampId l ∉ l.map Camp.id := by
  cases l with
  | nil => simp
  | cons c rest =>
    intro hmem
    rw [List.mem_map] at hmem
    rcases hmem with ⟨a, ha, hid⟩
    have h1 : a.id ≤ maxCampId (c :: rest) := le_maxCampId ha
    have h2 : newCampId (c :: rest) = maxCampId (c :: rest) + 1 := rfl
    omega

theorem activeSelCount_append_single (l : List Selection) (s : Selection) (x : Int) :
    activeSelCount (l ++ [s]) x
      = activeSelCount l x + (if s.campId = x then 1 else 0) := by
  unfold activeSelCount
  rw [List.filter_append]
  by_cases h : s.campId = x
  · have hb : (s.campId == x) = true := by simp [h]
    simp [List.filter, hb, h]
  · have hb : (s.campId == x) = false := by simp [h]
    simp [List.filter, hb, h]

/-! ### Preservation of the state well-formedness by each operation -/

theorem find_user_some_of_reg {users : List User} {uid : Int}
    (h : ∃ u ∈ users, u.id = uid) :
    ∃ u, users.find? (fun u => u.id == uid) = some u := by
  rcases h with ⟨u, hu, hid⟩
  have hs : (users.find? (fun u => u.id == uid)).isSome :=
    List.find?_isSome.mpr ⟨u, hu, by simp [hid]⟩
  exact Option.isSome_iff_exists.mp hs

theorem goodState_selectCamp (st : DBState) (caller : AuthUser) (campId : Int) (now : String)
    (hg : goodState st) (hreg : ∃ u ∈ st.users, u.id = caller.id) :
    goodState (selectCamp st caller campId now).1 := by
  obtain ⟨hinv, hdis, hsel⟩ := hg
  by_cases hrole : caller.role ≠ "refugee"
  · simp only [selectCamp, if_pos hrole]
    exact ⟨hinv, hdis, hsel⟩
  cases hcamp : st.camps.find? (fun c => c.id == campId) with
  | none =>
    simp only [selectCamp, if_neg hrole, hcamp]
    exact ⟨hinv, hdis, hsel⟩
  | some camp =>
    by_cases hexist : (st.selections.find? (fun s => s.userId == caller.id)).isSome
    · simp only [selectCamp, if_neg hrole, hcamp, if_pos hexist]
      exact ⟨hinv, hdis, hsel⟩
    by_cases hbeds : camp.beds ≤ 0
    · simp only [selectCamp, if_neg hrole, hcamp, if_neg hexist, if_pos hbeds]
      exact ⟨hinv, hdis, hsel⟩
    cases huser : st.users.find? (fun u => u.id == caller.id) with
    | none =>
      rcases find_user_some_of_reg hreg with ⟨u, hu⟩
      rw [huser] at hu
      exact absurd hu (by simp)
    | some user =>
      have hcampmem : camp ∈ st.camps := List.mem_of_find?_eq_some hcamp
      have hcampid : camp.id = campId := by
        have := List.find?_some hcamp
        simpa using this
      have hst : (selectCamp st caller campId now).1
          = { st with
                camps := updateFirstCamp st.camps campId (fun c => { c with beds := c.beds - 1 }),
                selections := st.selections ++
                  [{ id := st.selections.length + 1
                     userId := caller.id
                     userEmail := caller.email
                     userName := user.name
                     campId := campId
                     campName := camp.name
                     selectedDate := now }] } := by
        simp only [selectCamp, if_neg hrole, hcamp, if_neg hexist, if_neg hbeds, huser]
      rw [hst]
      refine ⟨?_, ?_, ?_⟩
      · intro c' hc'
        simp only at hc'
        rcases updateFirstCamp_mem hdis hcamp c' hc' with h1 | ⟨h1, h2⟩
        · have hInv := hinv camp hcampmem
          rw [hcampid] at hInv
          subst h1
          simp only
          rw [activeSelCount_append_single]
          simp only [hcampid, if_pos rfl]
          push_cast
          omega
        · have hInv := hinv c' h1
          simp only
          rw [activeSelCount_append_single]
          simp only
          rw [if_neg (by intro heq; exact h2 heq.symm)]
          simpa using hInv
      · show (List.map Camp.id
          (updateFirstCamp st.camps campId (fun c => { c with beds := c.beds - 1 }))).Nodup
        rw [updateFirstCamp_map_id st.camps campId
          (fun c => { c with beds := c.beds - 1 }) (fun c => rfl)]
        exact hdis
      · intro s hs
        simp only at hs ⊢
        rw [updateFirstCamp_map_id st.camps campId
          (fun c => { c with beds := c.beds - 1 }) (fun c => rfl)]
        rcases List.mem_append.mp hs with h1 | h1
        · exact hsel s h1
        · have : s.campId = campId := by
            rcases List.mem_singleton.mp h1 with rfl
            rfl
          rw [this]
          exact List.mem_map.mpr ⟨camp, hcampmem, hcampid⟩

theorem activeSelCount_removeFirst {l : List Selection} {uid : Int} {s0 : Selection}
    (hf : l.find? (fun s => s.userId == uid) = some s0) (x : Int) :
    activeSelCount l x
      = activeSelCount (removeFirstSelection l uid) x
        + (if s0.campId = x then 1 else 0) :=
  removeFirstSelection_count hf x

theorem activeSelCount_filter_ne (l : List Selection) {cid x : Int} (h : x ≠ cid) :
    activeSelCount (l.filter (fun s => s.campId ≠ cid)) x = activeSelCount l x := by
  unfold activeSelCount
  rw [List.filter_filter]
  refine congrArg List.length (List.filter_congr ?_)
  intro a _
  by_cases ha : a.campId = x
  · simp [ha, h]
  · simp [ha]

theorem goodState_cancelSelection (st : DBState) (caller : AuthUser)
    (hg : goodState st) :
    goodState (cancelSelection st caller).1 := by
  obtain ⟨hinv, hdis, hsel⟩ := hg
  cases hfsel : st.selections.find? (fun s => s.userId == caller.id) with
  | none =>
    simp only [cancelSelection, hfsel]
    exact ⟨hinv, hdis, hsel⟩
  | some selection =>
    have hselmem : selection ∈ st.selections := List.mem_of_find?_eq_some hfsel
    have hcampex : selection.campId ∈ st.camps.map Camp.id := hsel selection hselmem
    have hc0ex : ∃ c0, st.camps.find? (fun c => c.id == selection.campId) = some c0 := by
      rcases List.mem_map.mp hcampex with ⟨c, hc, hcid⟩
      exact Option.isSome_iff_exists.mp
        (List.find?_isSome.mpr ⟨c, hc, by simp [hcid]⟩)
    rcases hc0ex with ⟨c0, hc0⟩
    have hc0mem : c0 ∈ st.camps := List.mem_of_find?_eq_some hc0
    have hc0id : c0.id = selection.campId := by
      have := List.find?_some hc0
      simpa using this
    have hst : (cancelSelection st caller).1
        = { st with
              camps := updateFirstCamp st.camps selection.campId
                (fun c => { c with beds := c.beds + 1 }),
              selections := removeFirstSelection st.selections caller.id } := by
      simp only [cancelSelection, hfsel, hc0]
    rw [hst]
    refine ⟨?_, ?_, ?_⟩
    · intro c' hc'
      simp only at hc'
      rcases updateFirstCamp_mem hdis hc0 c' hc' with h1 | ⟨h1, h2⟩
      · have hInv := hinv c0 hc0mem
        have hcount := activeSelCount_removeFirst hfsel c0.id
        rw [if_pos hc0id.symm] at hcount
        subst h1
        simp only
        push_cast at hInv hcount ⊢
        omega
      · have hInv := hinv c' h1
        have hcount := activeSelCount_removeFirst hfsel c'.id
        rw [if_neg (by intro heq; exact h2 heq.symm)] at hcount
        simp only
        push_cast at hInv hcount ⊢
        omega
    · show (List.map Camp.id
        (updateFirstCamp st.camps selection.campId
          (fun c => { c with beds := c.beds + 1 }))).Nodup
      rw [updateFirstCamp_map_id st.camps selection.campId
        (fun c => { c with beds := c.beds + 1 }) (fun c => rfl)]
      exact hdis
    · intro s hs
      simp only at hs ⊢
      rw [updateFirstCamp_map_id st.camps selection.campId
        (fun c => { c with beds := c.beds + 1 }) (fun c => rfl)]
      exact hsel s ((removeFirstSelection_sublist _ _).subset hs)

theorem goodState_addCamp (st : DBState) (caller : AuthUser) (name : String) (beds : Int)
    (resources contact ambulance now : String) (hg : goodState st) :
    goodState (addCamp st caller name beds resources contact ambulance now).1 := by
  obtain ⟨hinv, hdis, hsel⟩ := hg
  by_cases hrole : caller.role ≠ "volunteer"
  · simp only [addCamp, if_pos hrole]
    exact ⟨hinv, hdis, hsel⟩
  by_cases hvalid : name = "" ∨ beds = 0
  · simp only [addCamp, if_neg hrole, if_pos hvalid]
    exact ⟨hinv, hdis, hsel⟩
  cases huser : st.users.find? (fun u => u.id == caller.id) with
  | none =>
    simp only [addCamp, if_neg hrole, if_neg hvalid, huser]
    exact ⟨hinv, hdis, hsel⟩
  | some volunteer =>
    have hnotmem := newCampId_not_mem st.camps
    have hst : (addCamp st caller name beds resources contact ambulance now).1
        = { st with camps := st.camps ++
            [{ id := newCampId st.camps
               name := name
               beds := beds
               originalBeds := beds
               resources := parseResources resources
               contact := contact
               ambulance := if ambulance = "" then "No" else ambulance
               type := "volunteer-added"
               addedBy := volunteer.name
               addedDate := now }] } := by
      simp only [addCamp, if_neg hrole, if_neg hvalid, huser]
    rw [hst]
    refine ⟨?_, ?_, ?_⟩
    · intro c' hc'
      simp only at hc'
      rcases List.mem_append.mp hc' with h1 | h1
      · exact hinv c' h1
      · rcases List.mem_singleton.mp h1 with rfl
        simp only
        have hzero : activeSelCount st.selections (newCampId st.camps) = 0 := by
          unfold activeSelCount
          rw [List.length_eq_zero, List.filter_eq_nil_iff]
          intro s hs
          have hmem := hsel s hs
          simp only [beq_iff_eq]
          intro heq
          rw [heq] at hmem
          exact hnotmem hmem
        rw [hzero]
        simp
    · show (List.map Camp.id _).Nodup
      simp only [List.map_append, List.map_cons, List.map_nil]
      rw [List.nodup_append]
      refine ⟨hdis, List.nodup_singleton _, ?_⟩
      intro a ha hb
      rcases List.mem_singleton.mp hb with rfl
      exact hnotmem ha
    · intro s hs
      simp only at hs ⊢
      rw [List.map_append]
      exact List.mem_append_left _ (hsel s hs)

theorem goodState_deleteCamp (st : DBState) (caller : AuthUser) (campId : Int)
    (hg : goodState st) :
    goodState (deleteCamp st caller campId).1 := by
  obtain ⟨hinv, hdis, hsel⟩ := hg
  by_cases hrole : caller.role ≠ "volunteer"
  · simp only [deleteCamp, if_pos hrole]
    exact ⟨hinv, hdis, hsel⟩
  cases hcamp : st.camps.find? (fun c => c.id == campId) with
  | none =>
    simp only [deleteCamp, if_neg hrole, hcamp]
    exact ⟨hinv, hdis, hsel⟩
  | some camp =>
    by_cases hdef : camp.type = "default"
    · simp only [deleteCamp, if_neg hrole, hcamp, if_pos hdef]
      exact ⟨hinv, hdis, hsel⟩
    have hst : (deleteCamp st caller campId).1
        = { st with camps := removeFirstCamp st.camps campId,
                    selections := st.selections.filter (fun s => s.campId ≠ campId) } := by
      simp only [deleteCamp, if_neg hrole, hcamp, if_neg hdef]
    rw [hst]
    refine ⟨?_, ?_, ?_⟩
    · intro c' hc'
      simp only at hc'
      rcases removeFirstCamp_mem hdis c' hc' with ⟨h1, h2⟩
      have hInv := hinv c' h1
      simp only
      rw [activeSelCount_filter_ne _ h2]
      exact hInv
    · show (List.map Camp.id (removeFirstCamp st.camps campId)).Nodup
      exact ((removeFirstCamp_sublist st.camps campId).map Camp.id).nodup hdis
    · intro s hs
      simp only at hs ⊢
      rw [List.mem_filter] at hs
      obtain ⟨hs1, hs2⟩ := hs
      have hs2' : s.campId ≠ campId := by simpa using hs2
      exact removeFirstCamp_map_mem (hsel s hs1) hs2'

theorem users_applyOp (st : DBState) (op : Op) : (applyOp st op).users = st.users := by
  cases op <;> simp only [applyOp, selectCamp, cancelSelection, addCamp, deleteCamp] <;>
    (repeat' split) <;> rfl

theorem bedsNonneg_selectCamp (st : DBState) (caller : AuthUser) (campId : Int) (now : String)
    (hb : bedsNonneg st) :
    bedsNonneg (selectCamp st caller campId now).1 := by
  by_cases hrole : caller.role ≠ "refugee"
  · simp only [selectCamp, if_pos hrole]
    exact hb
  cases hcamp : st.camps.find? (fun c => c.id == campId) with
  | none =>
    simp only [selectCamp, if_neg hrole, hcamp]
    exact hb
  | some camp =>
    by_cases hexist : (st.selections.find? (fun s => s.userId == caller.id)).isSome
    · simp only [selectCamp, if_neg hrole, hcamp, if_pos hexist]
      exact hb
    by_cases hbeds : camp.beds ≤ 0
    · simp only [selectCamp, if_neg hrole, hcamp, if_neg hexist, if_pos hbeds]
      exact hb
    have hcampmem : camp ∈ st.camps := List.mem_of_find?_eq_some hcamp
    have hmain : ∀ c' ∈ updateFirstCamp st.camps campId (fun c => { c with beds := c.beds - 1 }),
        0 ≤ c'.beds := by
      intro c' hc'
      rcases updateFirstCamp_mem_of_find hcamp c' hc' with h1 | h1
      · subst h1
        have := hb camp hcampmem
        simp only
        omega
      · exact hb c' h1
    cases huser : st.users.find? (fun u => u.id == caller.id) with
    | none =>
      simp only [selectCamp, if_neg hrole, hcamp, if_neg hexist, if_neg hbeds, huser]
      exact hmain
    | some user =>
      simp only [selectCamp, if_neg hrole, hcamp, if_neg hexist, if_neg hbeds, huser]
      exact hmain

theorem bedsNonneg_cancelSelection (st : DBState) (caller : AuthUser)
    (hb : bedsNonneg st) :
    bedsNonneg (cancelSelection st caller).1 := by
  cases hfsel : st.selections.find? (fun s => s.userId == caller.id) with
  | none =>
    simp only [cancelSelection, hfsel]
    exact hb
  | some selection =>
    cases hfc : st.camps.find? (fun c => c.id == selection.campId) with
    | none =>
      simp only [cancelSelection, hfsel, hfc]
      exact hb
    | some c0 =>
      simp only [cancelSelection, hfsel, hfc]
      intro c' hc'
      rcases updateFirstCamp_mem_of_find hfc c' hc' with h1 | h1
      · subst h1
        have := hb c0 (List.mem_of_find?_eq_some hfc)
        simp only
        omega
      · exact hb c' h1

theorem bedsNonneg_addCamp (st : DBState) (caller : AuthUser) (name : String) (beds : Int)
    (resources contact ambulance now : String) (hb : bedsNonneg st) (hbeds : 0 ≤ beds) :
    bedsNonneg (addCamp st caller name beds resources contact ambulance now).1 := by
  by_cases hrole : caller.role ≠ "volunteer"
  · simp only [addCamp, if_pos hrole]
    exact hb
  by_cases hvalid : name = "" ∨ beds = 0
  · simp only [addCamp, if_neg hrole, if_pos hvalid]
    exact hb
  cases huser : st.users.find? (fun u => u.id == caller.id) with
  | none =>
    simp only [addCamp, if_neg hrole, if_neg hvalid, huser]
    exact hb
  | some volunteer =>
    simp only [addCamp, if_neg hrole, if_neg hvalid, huser]
    intro c' hc'
    rcases List.mem_append.mp hc' with h1 | h1
    · exact hb c' h1
    · rcases List.mem_singleton.mp h1 with rfl
      exact hbeds

theorem bedsNonneg_deleteCamp (st : DBState) (caller : AuthUser) (campId : Int)
    (hb : bedsNonneg st) :
    bedsNonneg (deleteCamp st caller campId).1 := by
  by_cases hrole : caller.role ≠ "volunteer"
  · simp only [deleteCamp, if_pos hrole]
    exact hb
  cases hcamp : st.camps.find? (fun c => c.id == campId) with
  | none =>
    simp only [deleteCamp, if_neg hrole, hcamp]
    exact hb
  | some camp =>
    by_cases hdef : camp.type = "default"
    · simp only [deleteCamp, if_neg hrole, hcamp, if_pos hdef]
      exact hb
    simp only [deleteCamp, if_neg hrole, hcamp, if_neg hdef]
    intro c' hc'
    exact hb c' ((removeFirstCamp_sublist st.camps campId).subset hc')

theorem userIdsNodup_selectCamp (st : DBState) (caller : AuthUser) (campId : Int) (now : String)
    (hn : userIdsNodup st) :
    userIdsNodup (selectCamp st caller campId now).1 := by
  by_cases hrole : caller.role ≠ "refugee"
  · simp only [selectCamp, if_pos hrole]
    exact hn
  cases hcamp : st.camps.find? (fun c => c.id == campId) with
  | none =>
    simp only [selectCamp, if_neg hrole, hcamp]
    exact hn
  | some camp =>
    by_cases hexist : (st.selections.find? (fun s => s.userId == caller.id)).isSome
    · simp only [selectCamp, if_neg hrole, hcamp, if_pos hexist]
      exact hn
    by_cases hbeds : camp.beds ≤ 0
    · simp only [selectCamp, if_neg hrole, hcamp, if_neg hexist, if_pos hbeds]
      exact hn
    have hnone : st.selections.find? (fun s => s.userId == caller.id) = none :=
      Option.not_isSome_iff_eq_none.mp hexist
    have hnotmem : caller.id ∉ st.selections.map Selection.userId := by
      intro hmem
      rcases List.mem_map.mp hmem with ⟨s, hs, hid⟩
      have := List.find?_eq_none.mp hnone s hs
      simp [hid] at this
    cases huser : st.users.find? (fun u => u.id == caller.id) with
    | none =>
      simp only [selectCamp, if_neg hrole, hcamp, if_neg hexist, if_neg hbeds, huser]
      exact hn
    | some user =>
      simp only [selectCamp, if_neg hrole, hcamp, if_neg hexist, if_neg hbeds, huser]
      show (List.map Selection.userId (st.selections ++ [_])).Nodup
      rw [List.map_append]
      rw [List.nodup_append]
      refine ⟨hn, List.nodup_singleton _, ?_⟩
      intro a ha hb
      rcases List.mem_singleton.mp hb with rfl
      exact hnotmem ha

theorem userIdsNodup_cancelSelection (st : DBState) (caller : AuthUser)
    (hn : userIdsNodup st) :
    userIdsNodup (cancelSelection st caller).1 := by
  cases hfsel : st.selections.find? (fun s => s.userId == caller.id) with
  | none =>
    simp only [cancelSelection, hfsel]
    exact hn
  | some selection =>
    simp only [cancelSelection, hfsel]
    show (List.map Selection.userId (removeFirstSelection st.selections caller.id)).Nodup
    exact ((removeFirstSelection_sublist st.selections caller.id).map Selection.userId).nodup hn

theorem userIdsNodup_addCamp (st : DBState) (caller : AuthUser) (name : String) (beds : Int)
    (resources contact ambulance now : String) (hn : userIdsNodup st) :
    userIdsNodup (addCamp st caller name beds resources contact ambulance now).1 := by
  by_cases hrole : caller.role ≠ "volunteer"
  · simp only [addCamp, if_pos hrole]
    exact hn
  by_cases hvalid : name = "" ∨ beds = 0
  · simp only [addCamp, if_neg hrole, if_pos hvalid]
    exact hn
  cases huser : st.users.find? (fun u => u.id == caller.id) with
  | none =>
    simp only [addCamp, if_neg hrole, if_neg hvalid, huser]
    exact hn
  | some volunteer =>
    simp only [addCamp, if_neg hrole, if_neg hvalid, huser]
    exact hn

theorem userIdsNodup_deleteCamp (st : DBState) (caller : AuthUser) (campId : Int)
    (hn : userIdsNodup st) :
    userIdsNodup (deleteCamp st caller campId).1 := by
  by_cases hrole : caller.role ≠ "volunteer"
  · simp only [deleteCamp, if_pos hrole]
    exact hn
  cases hcamp : st.camps.find? (fun c => c.id == campId) with
  | none =>
    simp only [deleteCamp, if_neg hrole, hcamp]
    exact hn
  | some camp =>
    by_cases hdef : camp.type = "default"
    · simp only [deleteCamp, if_neg hrole, hcamp, if_pos hdef]
      exact hn
    simp only [deleteCamp, if_neg hrole, hcamp, if_neg hdef]
    show (List.map Selection.userId (st.selections.filter _)).Nodup
    exact ((List.filter_sublist st.selections).map Selection.userId).nodup hn

theorem goodState_applyOp (st : DBState) (op : Op)
    (hg : goodState st) (hok : selectCallerOk st.users op) :
    goodState (applyOp st op) := by
  cases op with
  | select caller campId now => exact goodState_selectCamp st caller campId now hg hok
  | cancel caller => exact goodState_cancelSelection st caller hg
  | add caller name beds resources contact ambulance now =>
      exact goodState_addCamp st caller name beds resources contact ambulance now hg
  | delete caller campId => exact goodState_deleteCamp st caller campId hg

theorem bedsNonneg_applyOp (st : DBState) (op : Op)
    (hb : bedsNonneg st) (hok : addBedsOk op) :
    bedsNonneg (applyOp st op) := by
  cases op with
  | select caller campId now => exact bedsNonneg_selectCamp st caller campId now hb
  | cancel caller => exact bedsNonneg_cancelSelection st caller hb
  | add caller name beds resources contact ambulance now =>
      exact bedsNonneg_addCamp st caller name beds resources contact ambulance now hb hok
  | delete caller campId => exact bedsNonneg_deleteCamp st caller campId hb

theorem userIdsNodup_applyOp (st : DBState) (op : Op)
    (hn : userIdsNodup st) :
    userIdsNodup (applyOp st op) := by
  cases op with
  | select caller campId now => exact userIdsNodup_selectCamp st caller campId now hn
  | cancel caller => exact userIdsNodup_cancelSelection st caller hn
  | add caller name beds resources contact ambulance now =>
      exact userIdsNodup_addCamp st caller name beds resources contact ambulance now hn
  | delete caller campId => exact userIdsNodup_deleteCamp st caller campId hn

theorem goodState_runOps : ∀ (ops : List Op) (st : DBState),
    goodState st → (∀ op ∈ ops, selectCallerOk st.users op) →
    goodState (runOps st ops) := by
  intro ops
  induction ops with
  | nil => intro st hg _; exact hg
  | cons op rest ih =>
    intro st hg hok
    show goodState (runOps (applyOp st op) rest)
    refine ih (applyOp st op)
      (goodState_applyOp st op hg (hok op (List.mem_cons_self _ _))) ?_
    intro o ho
    rw [users_applyOp st op]
    exact hok o (List.mem_cons_of_mem _ ho)

theorem bedsNonneg_runOps : ∀ (ops : List Op) (st : DBState),
    bedsNonneg st → (∀ op ∈ ops, addBedsOk op) →
    bedsNonneg (runOps st ops) := by
  intro ops
  induction ops with
  | nil => intro st hb _; exact hb
  | cons op rest ih =>
    intro st hb hok
    show bedsNonneg (runOps (applyOp st op) rest)
    refine ih (applyOp st op)
      (bedsNonneg_applyOp st op hb (hok op (List.mem_cons_self _ _))) ?_
    intro o ho
    exact hok o (List.mem_cons_of_mem _ ho)

theorem userIdsNodup_runOps : ∀ (ops : List Op) (st : DBState),
    userIdsNodup st → userIdsNodup (runOps st ops) := by
  intro ops
  induction ops with
  | nil => intro st hn; exact hn
  | cons op rest ih =>
    intro st hn
    show userIdsNodup (runOps (applyOp st op) rest)
    exact ih (applyOp st op) (userIdsNodup_applyOp st op hn)

/-! ### Claim theorems -/

/-- Claim C1, as stated, is false: preserving the bed-count ledger under
every operation sequence from *any* state satisfying it fails, because
`AddCamp` reuses the id of a dangling selection.  From `dangleState`
(no camps, one selection referencing camp id 1, ledger vacuously true),
adding a camp creates camp id 1 with `beds = originalBeds = 5` while one
active selection references it, so `beds ≠ originalBeds - 1`. -/
theorem C1_counterexample :
    ¬ (∀ st : DBState, campInvariant st →
        ∀ ops : List Op, campInvariant (runOps st ops)) := by
  intro h
  have h2 := h dangleState (by decide) [Op.add veraAuth "New Camp" 5 "" "" "" "t1"]
  exact absurd h2 (by decide)

/-- Claim C1, amended: for every state that satisfies the bed-count
ledger together with distinct camp ids and selections referencing
existing camps (as the seeded initial state does), and every operation
sequence whose `SelectCamp` callers are registered users, every
reachable state satisfies `beds = originalBeds - #selections` for every
camp present. -/
theorem C1_invariant_amended (st : DBState) (hg : goodState st) (ops : List Op)
    (hok : ∀ op ∈ ops, selectCallerOk st.users op) :
    campInvariant (runOps st ops) :=
  (goodState_runOps ops st hg hok).1

/-- Witness for C1: running a select followed by a cancel from the
seeded base state keeps the ledger. -/
theorem C1_witness :
    campInvariant (runOps baseState [Op.select rinaAuth 1 "t1", Op.cancel rinaAuth]) :=
  C1_invariant_amended baseState (by decide)
    [Op.select rinaAuth 1 "t1", Op.cancel rinaAuth] (by decide)

/-- Claim C2, as stated, is false: `0 ≤ beds ≤ originalBeds` is not
preserved from every state satisfying it, because `AddCamp` accepts a
negative bed count (`!beds` only rejects `0`): from a state with one
volunteer and no camps, `AddCamp` with bedCount `-5` creates a camp with
`beds = originalBeds = -5 < 0`. -/
theorem C2_counterexample :
    ¬ (∀ st : DBState, bedsInRange st →
        ∀ ops : List Op, bedsInRange (runOps st ops)) := by
  intro h
  have h2 := h emptyCampState (by decide) [Op.add veraAuth "New Camp" (-5) "" "" "" "t1"]
  exact absurd h2 (by decide)

/-- Claim C2, amended: for every state satisfying the bed-count ledger,
distinct camp ids, selections referencing existing camps, and
non-negative bed counts, and every operation sequence whose `SelectCamp`
callers are registered users and whose `AddCamp` bed counts are
non-negative, every camp in every reachable state satisfies
`0 ≤ beds ≤ originalBeds`. -/
theorem C2_range_amended (st : DBState) (hg : goodState st) (hb : bedsNonneg st)
    (ops : List Op)
    (hok1 : ∀ op ∈ ops, selectCallerOk st.users op)
    (hok2 : ∀ op ∈ ops, addBedsOk op) :
    bedsInRange (runOps st ops) := by
  have h1 := (goodState_runOps ops st hg hok1).1
  have h2 := bedsNonneg_runOps ops st hb hok2
  intro c hc
  refine ⟨h2 c hc, ?_⟩
  have h3 := h1 c hc
  have h4 : (0 : Int) ≤ (activeSelCount (runOps st ops).selections c.id : Int) :=
    Int.ofNat_nonneg _
  omega

/-- Witness for C2: a select, an add and a delete from the seeded base
state keep all bed counts in range. -/
theorem C2_witness :
    bedsInRange (runOps baseState
      [Op.select rinaAuth 1 "t1", Op.add veraAuth "Annex" 4 "Food" "" "" "t2",
       Op.delete veraAuth 2]) :=
  C2_range_amended baseState (by decide) (by decide)
    [Op.select rinaAuth 1 "t1", Op.add veraAuth "Annex" 4 "Food" "" "" "t2",
     Op.delete veraAuth 2] (by decide) (by decide)

/-- Claim C3 (confirmed): from any state in which each user holds at
most one active selection, every sequence of the four operations
preserves that property: the duplicate-selection guard makes the
per-user uniqueness invariant inductive on its own. -/
theorem C3_one_selection_per_user (st : DBState) (hn : userIdsNodup st)
    (ops : List Op) :
    userIdsNodup (runOps st ops) :=
  userIdsNodup_runOps ops st hn

/-- Witness for C3: two different refugees selecting and one cancelling
leaves the per-user uniqueness intact. -/
theorem C3_witness :
    userIdsNodup (runOps baseState
      [Op.select rinaAuth 1 "t1", Op.select raviAuth 2 "t2", Op.cancel rinaAuth]) :=
  C3_one_selection_per_user baseState (by decide)
    [Op.select rinaAuth 1 "t1", Op.select raviAuth 2 "t2", Op.cancel rinaAuth]

/-- Claim C4 (confirmed): for any state, a refugee with no existing
selection whose `SelectCamp` succeeds and immediately cancels is back in
the very state the pair started from: the whole database (in particular
the camp's bed count) is restored and no selection for the user
remains. -/
theorem C4_roundtrip (st : DBState) (caller : AuthUser) (campId : Int) (now : String)
    (st1 : DBState) (sel : Selection)
    (hrole : caller.role = "refugee")
    (hnosel : st.selections.find? (fun s => s.userId == caller.id) = none)
    (hsucc : selectCamp st caller campId now = (st1, Except.ok sel)) :
    cancelSelection st1 caller = (st, Except.ok ()) ∧
    (cancelSelection st1 caller).1.selections.find? (fun s => s.userId == caller.id) = none := by
  have hrole' : ¬ caller.role ≠ "refugee" := by simp [hrole]
  cases hcamp : st.camps.find? (fun c => c.id == campId) with
  | none =>
    exfalso
    simp [selectCamp, if_neg hrole', hcamp] at hsucc
  | some camp =>
    have hexist : ¬ (st.selections.find? (fun s => s.userId == caller.id)).isSome = true := by
      rw [hnosel]
      simp
    by_cases hbeds : camp.beds ≤ 0
    · exfalso
      simp [selectCamp, if_neg hrole', hcamp, hexist, if_pos hbeds] at hsucc
    cases huser : st.users.find? (fun u => u.id == caller.id) with
    | none =>
      exfalso
      simp [selectCamp, if_neg hrole', hcamp, hexist, if_neg hbeds, huser] at hsucc
    | some user =>
      simp only [selectCamp, if_neg hrole', hcamp, if_neg hexist, if_neg hbeds, huser] at hsucc
      have h1 := congrArg Prod.fst hsucc
      have h2 := congrArg Prod.snd hsucc
      simp only at h1 h2
      injection h2 with h2'
      subst h2'
      subst h1
      have hfind1 : (st.selections ++
          [(⟨st.selections.length + 1, caller.id, caller.email, user.name, campId,
            camp.name, now⟩ : Selection)]).find? (fun s => s.userId == caller.id)
          = some ⟨st.selections.length + 1, caller.id, caller.email, user.name, campId,
            camp.name, now⟩ := by
        rw [List.find?_append, hnosel]
        simp [List.find?]
      have hfind2 : (updateFirstCamp st.camps campId
            (fun c => { c with beds := c.beds - 1 })).find? (fun c => c.id == campId)
          = some { camp with beds := camp.beds - 1 } :=
        updateFirstCamp_find hcamp rfl
      have hcamps : updateFirstCamp
          (updateFirstCamp st.camps campId (fun c => { c with beds := c.beds - 1 }))
          campId (fun c => { c with beds := c.beds + 1 }) = st.camps := by
        rw [updateFirstCamp_updateFirstCamp st.camps campId
          (fun c => { c with beds := c.beds - 1 })
          (fun c => { c with beds := c.beds + 1 }) (fun c => rfl)]
        refine updateFirstCamp_of_eq_id st.camps campId _ (fun c => ?_)
        have hb : c.beds - 1 + 1 = c.beds := by omega
        show ({ c with beds := c.beds - 1 + 1 } : Camp) = c
        rw [hb]
      have hsels : removeFirstSelection (st.selections ++
          [(⟨st.selections.length + 1, caller.id, caller.email, user.name, campId,
            camp.name, now⟩ : Selection)]) caller.id = st.selections :=
        removeFirstSelection_append_of_none hnosel rfl
      have hcancel : cancelSelection
          { st with
              camps := updateFirstCamp st.camps campId (fun c => { c with beds := c.beds - 1 }),
              selections := st.selections ++
                [(⟨st.selections.length + 1, caller.id, caller.email, user.name, campId,
                  camp.name, now⟩ : Selection)] } caller = (st, Except.ok ()) := by
        simp only [cancelSelection, hfind1, hfind2, hcamps, hsels]
      refine ⟨hcancel, ?_⟩
      rw [hcancel]
      exact hnosel

/-- Witness for C4: Rina selects camp 1 from the base state and cancels;
the database returns to the base state. -/
theorem C4_witness :
    cancelSelection baseStateAfterSelect rinaAuth = (baseState, Except.ok ()) ∧
    (cancelSelection baseStateAfterSelect rinaAuth).1.selections.find?
      (fun s => s.userId == rinaAuth.id) = none :=
  C4_roundtrip baseState rinaAuth 1 "t1" baseStateAfterSelect rinaSelection rfl rfl rfl

/-- Claim C5, as stated, is false: the four error conditions are not
biconditionals, because the handler checks the role before looking the
camp up.  With no camps and a volunteer caller, `SelectCamp` returns the
role error although the camp is absent, contradicting the claim that it
fails with NotFound exactly when the camp is absent. -/
theorem C5_counterexample :
    ¬ (∀ (st : DBState) (caller : AuthUser) (campId : Int) (now : String),
        ((selectCamp st caller campId now).2 = Except.error campNotFoundErr ↔
          st.camps.find? (fun c => c.id == campId) = none) ∧
        ((selectCamp st caller campId now).2 = Except.error onlyRefugeesSelectErr ↔
          caller.role ≠ "refugee") ∧
        ((selectCamp st caller campId now).2 = Except.error alreadySelectedErr ↔
          (st.selections.find? (fun s => s.userId == caller.id)).isSome = true) ∧
        ((selectCamp st caller campId now).2 = Except.error campFullErr ↔
          (∃ camp, st.camps.find? (fun c => c.id == campId) = some camp ∧ camp.beds ≤ 0)) ∧
        ((caller.role = "refugee" ∧
          (∃ camp, st.camps.find? (fun c => c.id == campId) = some camp ∧ 0 < camp.beds) ∧
          st.selections.find? (fun s => s.userId == caller.id) = none) →
          ∃ sel, (selectCamp st caller campId now).2 = Except.ok sel)) := by
  intro h
  have h2 := (h emptyCampState veraAuth 1 "t1").1
  have h3 : (selectCamp emptyCampState veraAuth 1 "t1").2
      = Except.error campNotFoundErr := h2.mpr rfl
  have h4 : (selectCamp emptyCampState veraAuth 1 "t1").2
      = Except.error onlyRefugeesSelectErr := rfl
  rw [h4] at h3
  injection h3 with h5
  exact absurd h5 (by decide)

/-- Claim C5, amended: the checks are applied in priority order
role, camp existence, existing selection, capacity; each error occurs
exactly when its condition is the first to fail, and when all
preconditions hold and the caller is a registered user the call
succeeds and returns the created selection. -/
theorem C5_select_errors_amended (st : DBState) (caller : AuthUser) (campId : Int)
    (now : String) (hreg : ∃ u ∈ st.users, u.id = caller.id) :
    ((selectCamp st caller campId now).2 = Except.error onlyRefugeesSelectErr ↔
      caller.role ≠ "refugee") ∧
    ((selectCamp st caller campId now).2 = Except.error campNotFoundErr ↔
      (caller.role = "refugee" ∧ st.camps.find? (fun c => c.id == campId) = none)) ∧
    ((selectCamp st caller campId now).2 = Except.error alreadySelectedErr ↔
      (caller.role = "refugee" ∧ (st.camps.find? (fun c => c.id == campId)).isSome = true ∧
        (st.selections.find? (fun s => s.userId == caller.id)).isSome = true)) ∧
    ((selectCamp st caller campId now).2 = Except.error campFullErr ↔
      (caller.role = "refugee" ∧
        (∃ camp, st.camps.find? (fun c => c.id == campId) = some camp ∧ camp.beds ≤ 0) ∧
        st.selections.find? (fun s => s.userId == caller.id) = none)) ∧
    ((caller.role = "refugee" ∧
        (∃ camp, st.camps.find? (fun c => c.id == campId) = some camp ∧ 0 < camp.beds) ∧
        st.selections.find? (fun s => s.userId == caller.id) = none) →
      ∃ user camp, st.users.find? (fun u => u.id == caller.id) = some user ∧
        st.camps.find? (fun c => c.id == campId) = some camp ∧
        (selectCamp st caller campId now).2 = Except.ok
          ⟨st.selections.length + 1, caller.id, caller.email, user.name, campId,
            camp.name, now⟩) := by
  have errInj : ∀ {a b : ApiErr},
      Except.error (ε := ApiErr) (α := Selection) a = Except.error b → a = b := by
    intro a b hh
    injection hh
  by_cases hrole : caller.role ≠ "refugee"
  · have hres : (selectCamp st caller campId now).2 = Except.error onlyRefugeesSelectErr := by
      simp only [selectCamp, if_pos hrole]
    rw [hres]
    refine ⟨iff_of_true rfl hrole, ?_, ?_, ?_, ?_⟩
    · exact iff_of_false (fun hh => absurd (errInj hh) (by decide))
        (fun hh => hrole hh.1)
    · exact iff_of_false (fun hh => absurd (errInj hh) (by decide))
        (fun hh => hrole hh.1)
    · exact iff_of_false (fun hh => absurd (errInj hh) (by decide))
        (fun hh => hrole hh.1)
    · rintro ⟨hr, -, -⟩
      exact absurd hr hrole
  have hrole2 : caller.role = "refugee" := not_not.mp hrole
  cases hcamp : st.camps.find? (fun c => c.id == campId) with
  | none =>
    have hres : (selectCamp st caller campId now).2 = Except.error campNotFoundErr := by
      simp only [selectCamp, if_neg hrole, hcamp]
    rw [hres]
    refine ⟨?_, iff_of_true rfl ⟨hrole2, rfl⟩, ?_, ?_, ?_⟩
    · exact iff_of_false (fun hh => absurd (errInj hh) (by decide)) (fun hh => hh hrole2)
    · refine iff_of_false (fun hh => absurd (errInj hh) (by decide)) ?_
      rintro ⟨-, hsome, -⟩
      simp at hsome
    · refine iff_of_false (fun hh => absurd (errInj hh) (by decide)) ?_
      rintro ⟨-, ⟨camp, hc, -⟩, -⟩
      exact Option.noConfusion hc
    · rintro ⟨-, ⟨camp, hc, -⟩, -⟩
      exact Option.noConfusion hc
  | some camp =>
    by_cases hexist : (st.selections.find? (fun s => s.userId == caller.id)).isSome = true
    · have hres : (selectCamp st caller campId now).2 = Except.error alreadySelectedErr := by
        simp only [selectCamp, if_neg hrole, hcamp, if_pos hexist]
      rw [hres]
      refine ⟨?_, ?_, iff_of_true rfl ⟨hrole2, rfl, hexist⟩, ?_, ?_⟩
      · exact iff_of_false (fun hh => absurd (errInj hh) (by decide)) (fun hh => hh hrole2)
      · refine iff_of_false (fun hh => absurd (errInj hh) (by decide)) ?_
        rintro ⟨-, hn⟩
        exact Option.noConfusion hn
      · refine iff_of_false (fun hh => absurd (errInj hh) (by decide)) ?_
        rintro ⟨-, -, hnone⟩
        rw [hnone] at hexist
        simp at hexist
      · rintro ⟨-, -, hnone⟩
        rw [hnone] at hexist
        simp at hexist
    by_cases hbeds : camp.beds ≤ 0
    · have hres : (selectCamp st caller campId now).2 = Except.error campFullErr := by
        simp only [selectCamp, if_neg hrole, hcamp, if_neg hexist, if_pos hbeds]
      rw [hres]
      refine ⟨?_, ?_, ?_,
        iff_of_true rfl ⟨hrole2, ⟨camp, rfl, hbeds⟩,
          Option.not_isSome_iff_eq_none.mp hexist⟩, ?_⟩
      · exact iff_of_false (fun hh => absurd (errInj hh) (by decide)) (fun hh => hh hrole2)
      · refine iff_of_false (fun hh => absurd (errInj hh) (by decide)) ?_
        rintro ⟨-, hn⟩
        exact Option.noConfusion hn
      · exact iff_of_false (fun hh => absurd (errInj hh) (by decide))
          (fun hh => hexist hh.2.2)
      · rintro ⟨-, ⟨camp2, hc2, hpos⟩, -⟩
        injection hc2 with hc3
        subst hc3
        omega
    cases huser : st.users.find? (fun u => u.id == caller.id) with
    | none =>
      exfalso
      rcases find_user_some_of_reg hreg with ⟨u, hu⟩
      rw [huser] at hu
      exact Option.noConfusion hu
    | some user =>
      have hres : (selectCamp st caller campId now).2 = Except.ok
          ⟨st.selections.length + 1, caller.id, caller.email, user.name, campId,
            camp.name, now⟩ := by
        simp only [selectCamp, if_neg hrole, hcamp, if_neg hexist, if_neg hbeds, huser]
      rw [hres]
      refine ⟨?_, ?_, ?_, ?_, ?_⟩
      · exact iff_of_false (fun hh => Except.noConfusion hh) (fun hh => hh hrole2)
      · refine iff_of_false (fun hh => Except.noConfusion hh) ?_
        rintro ⟨-, hn⟩
        exact Option.noConfusion hn
      · exact iff_of_false (fun hh => Except.noConfusion hh) (fun hh => hexist hh.2.2)
      · refine iff_of_false (fun hh => Except.noConfusion hh) ?_
        rintro ⟨-, ⟨camp2, hc2, hle⟩, -⟩
        injection hc2 with hc3
        subst hc3
        omega
      · intro _
        exact ⟨user, camp, rfl, rfl, rfl⟩

/-- Witness for C5: from the base state, Rina's select succeeds and
returns the freshly built selection record. -/
theorem C5_witness :
    ∃ user camp, baseState.users.find? (fun u => u.id == rinaAuth.id) = some user ∧
      baseState.camps.find? (fun c => c.id == (1 : Int)) = some camp ∧
      (selectCamp baseState rinaAuth 1 "t1").2 = Except.ok
        ⟨baseState.selections.length + 1, rinaAuth.id, rinaAuth.email, user.name, 1,
          camp.name, "t1"⟩ :=
  (C5_select_errors_amended baseState rinaAuth 1 "t1" (by decide)).2.2.2.2
    ⟨rfl, ⟨centralCamp, rfl, by decide⟩, rfl⟩

/-- A camp whose id differs from the updated one is untouched by
`updateFirstCamp`. -/
theorem updateFirstCamp_mem_of_ne {l : List Camp} {cid : Int} {f : Camp → Camp} {c : Camp}
    (hc : c ∈ l) (hne : c.id ≠ cid) :
    c ∈ updateFirstCamp l cid f := by
  induction l with
  | nil => simp at hc
  | cons a rest ih =>
    unfold updateFirstCamp
    rcases List.mem_cons.mp hc with h1 | h1
    · subst h1
      rw [if_neg hne]
      exact List.mem_cons_self _ _
    · by_cases h : a.id = cid
      · rw [if_pos h]
        exact List.mem_cons_of_mem _ h1
      · rw [if_neg h]
        exact List.mem_cons_of_mem _ (ih h1)

/-- Claim C6 (confirmed): for a user with an active selection,
cancelling succeeds, removes that (first) selection, increments the
referenced camp's bed count when the camp still exists and leaves the
camps untouched when it does not; for a user without a selection it
fails with NotFound and changes nothing. -/
theorem C6_cancel_behaviour (st : DBState) (caller : AuthUser) :
    (∀ sel, st.selections.find? (fun s => s.userId == caller.id) = some sel →
      ((cancelSelection st caller).2 = Except.ok () ∧
       (cancelSelection st caller).1.users = st.users ∧
       (cancelSelection st caller).1.selections
         = removeFirstSelection st.selections caller.id ∧
       (cancelSelection st caller).1.selections.length + 1 = st.selections.length ∧
       (∀ c0, st.camps.find? (fun c => c.id == sel.campId) = some c0 →
         (cancelSelection st caller).1.camps
           = updateFirstCamp st.camps sel.campId (fun c => { c with beds := c.beds + 1 }) ∧
         (cancelSelection st caller).1.camps.find? (fun c => c.id == sel.campId)
           = some { c0 with beds := c0.beds + 1 } ∧
         (∀ c ∈ st.camps, c.id ≠ sel.campId → c ∈ (cancelSelection st caller).1.camps)) ∧
       (st.camps.find? (fun c => c.id == sel.campId) = none →
         (cancelSelection st caller).1.camps = st.camps) ∧
       ((st.selections.map Selection.userId).Nodup →
         (cancelSelection st caller).1.selections.find?
           (fun s => s.userId == caller.id) = none))) ∧
    (st.selections.find? (fun s => s.userId == caller.id) = none →
      cancelSelection st caller = (st, Except.error noSelectionFoundErr)) := by
  cases hfsel : st.selections.find? (fun s => s.userId == caller.id) with
  | none =>
    refine ⟨?_, ?_⟩
    · intro sel h
      exact absurd h (by simp)
    · intro _
      simp only [cancelSelection, hfsel]
  | some sel0 =>
    refine ⟨?_, ?_⟩
    · intro sel h
      injection h with h'
      subst h'
      cases hfc : st.camps.find? (fun c => c.id == sel0.campId) with
      | some c0 =>
        have hcc : cancelSelection st caller
            = ({ st with
                  camps := updateFirstCamp st.camps sel0.campId
                    (fun c => { c with beds := c.beds + 1 }),
                  selections := removeFirstSelection st.selections caller.id },
               Except.ok ()) := by
          simp only [cancelSelection, hfsel, hfc]
        rw [hcc]
        refine ⟨rfl, rfl, rfl, removeFirstSelection_length hfsel, ?_, ?_, ?_⟩
        · intro c0' hc0'
          injection hc0' with h2
          subst h2
          refine ⟨rfl, updateFirstCamp_find hfc rfl, ?_⟩
          intro c hc hne
          exact updateFirstCamp_mem_of_ne hc hne
        · intro h2
          exact absurd h2 (by simp)
        · intro hnodup
          exact removeFirstSelection_find_none hnodup
      | none =>
        have hcc : cancelSelection st caller
            = ({ st with
                  selections := removeFirstSelection st.selections caller.id },
               Except.ok ()) := by
          simp only [cancelSelection, hfsel, hfc]
        rw [hcc]
        refine ⟨rfl, rfl, rfl, removeFirstSelection_length hfsel, ?_, ?_, ?_⟩
        · intro c0' hc0'
          exact absurd hc0' (by simp)
        · intro _
          rfl
        · intro hnodup
          exact removeFirstSelection_find_none hnodup
    · intro h
      exact absurd h (by simp [hfsel])

/-- Witness for C6: Rina cancels her selection from the selected base
state; the call succeeds, her selection is removed and none remains. -/
theorem C6_witness :
    (cancelSelection baseStateAfterSelect rinaAuth).2 = Except.ok () ∧
    (cancelSelection baseStateAfterSelect rinaAuth).1.selections
      = removeFirstSelection baseStateAfterSelect.selections rinaAuth.id ∧
    (cancelSelection baseStateAfterSelect rinaAuth).1.selections.find?
      (fun s => s.userId == rinaAuth.id) = none := by
  have h := (C6_cancel_behaviour baseStateAfterSelect rinaAuth).1 rinaSelection rfl
  exact ⟨h.1, h.2.2.1, h.2.2.2.2.2.2 (by decide)⟩

/-- Claim C7 (confirmed): deleting a camp fails with Forbidden for a
non-volunteer caller, with NotFound for a volunteer when the camp is
absent, and with Forbidden for a default camp; otherwise it succeeds,
cascade-deletes exactly the selections referencing the camp (with no
compensating bed change on any other camp) and removes the camp. -/
theorem C7_delete_behaviour (st : DBState) (caller : AuthUser) (campId : Int) :
    (caller.role ≠ "volunteer" →
      deleteCamp st caller campId = (st, Except.error onlyVolunteersDeleteErr)) ∧
    (caller.role = "volunteer" → st.camps.find? (fun c => c.id == campId) = none →
      deleteCamp st caller campId = (st, Except.error campNotFoundErr)) ∧
    (∀ camp, caller.role = "volunteer" →
      st.camps.find? (fun c => c.id == campId) = some camp → camp.type = "default" →
      deleteCamp st caller campId = (st, Except.error cannotDeleteDefaultErr)) ∧
    (∀ camp, caller.role = "volunteer" →
      st.camps.find? (fun c => c.id == campId) = some camp → camp.type ≠ "default" →
      ((deleteCamp st caller campId).2 = Except.ok () ∧
       (deleteCamp st caller campId).1.users = st.users ∧
       (deleteCamp st caller campId).1.selections
         = st.selections.filter (fun s => s.campId ≠ campId) ∧
       (∀ s ∈ (deleteCamp st caller campId).1.selections, s.campId ≠ campId) ∧
       (∀ s ∈ st.selections, s.campId ≠ campId →
         s ∈ (deleteCamp st caller campId).1.selections) ∧
       (deleteCamp st caller campId).1.camps = removeFirstCamp st.camps campId ∧
       (∀ c ∈ (deleteCamp st caller campId).1.camps, c ∈ st.camps) ∧
       ((st.camps.map Camp.id).Nodup →
         (deleteCamp st caller campId).1.camps.find?
           (fun c => c.id == campId) = none))) := by
  refine ⟨?_, ?_, ?_, ?_⟩
  · intro hrole
    simp only [deleteCamp, if_pos hrole]
  · intro hrole hnone
    have hrole' : ¬ caller.role ≠ "volunteer" := by simp [hrole]
    simp only [deleteCamp, if_neg hrole', hnone]
  · intro camp hrole hfind hdef
    have hrole' : ¬ caller.role ≠ "volunteer" := by simp [hrole]
    simp only [deleteCamp, if_neg hrole', hfind, if_pos hdef]
  · intro camp hrole hfind hdef
    have hrole' : ¬ caller.role ≠ "volunteer" := by simp [hrole]
    have hdd : deleteCamp st caller campId
        = ({ st with
              camps := removeFirstCamp st.camps campId,
              selections := st.selections.filter (fun s => s.campId ≠ campId) },
           Except.ok ()) := by
      simp only [deleteCamp, if_neg hrole', hfind, if_neg hdef]
    rw [hdd]
    refine ⟨rfl, rfl, rfl, ?_, ?_, rfl, ?_, ?_⟩
    · intro s hs
      rw [List.mem_filter] at hs
      simpa using hs.2
    · intro s hs hne
      rw [List.mem_filter]
      exact ⟨hs, by simpa using hne⟩
    · intro c hc
      exact (removeFirstCamp_sublist _ _).subset hc
    · intro hnodup
      exact removeFirstCamp_find_none hnodup

/-- Witness for C7: Vera deletes the volunteer-added camp 2 from the
selected base state; the call succeeds and camp 2 is gone. -/
theorem C7_witness :
    (deleteCamp baseStateAfterSelect veraAuth 2).2 = Except.ok () ∧
    (deleteCamp baseStateAfterSelect veraAuth 2).1.camps.find?
      (fun c => c.id == (2 : Int)) = none := by
  have h := (C7_delete_behaviour baseStateAfterSelect veraAuth 2).2.2.2 hallCamp rfl rfl
    (by decide)
  exact ⟨h.1, h.2.2.2.2.2.2.2 (by decide)⟩

/-- Claim C8, as stated, is false: a bedCount of 0 does not succeed.
JavaScript's `!beds` is true for `0`, so a volunteer adding a camp with
a non-empty name and bedCount 0 gets the 400 validation error instead
of a created camp. -/
theorem C8_counterexample :
    ¬ (∀ (st : DBState) (caller : AuthUser) (name : String) (beds : Int)
         (resources contact ambulance now : String),
        caller.role = "volunteer" → name ≠ "" → 0 ≤ beds →
        ∃ camp, (addCamp st caller name beds resources contact ambulance now).2
            = Except.ok camp ∧
          camp.beds = beds ∧ camp.originalBeds = beds ∧
          camp.type = "volunteer-added") := by
  intro h
  rcases h emptyCampState veraAuth "Camp X" 0 "" "" "" "t1" rfl (by decide) (by decide)
    with ⟨camp, hcamp, -⟩
  have hres : (addCamp emptyCampState veraAuth "Camp X" 0 "" "" "" "t1").2
      = Except.error nameBedsRequiredErr := rfl
  rw [hres] at hcamp
  exact Except.noConfusion hcamp

/-- Claim C8, amended: for a registered volunteer caller, a non-empty
name and a *nonzero* bedCount, AddCamp succeeds and appends a camp with
current = original = bedCount and type volunteer-added; it fails with
Forbidden for a non-volunteer, with InvalidInput exactly when the name
is empty or bedCount = 0, and (for registered callers) with nothing
else. -/
theorem C8_addCamp_amended (st : DBState) (caller : AuthUser) (name : String) (beds : Int)
    (resources contact ambulance now : String) :
    (caller.role ≠ "volunteer" →
      addCamp st caller name beds resources contact ambulance now
        = (st, Except.error onlyVolunteersAddErr)) ∧
    (caller.role = "volunteer" → (name = "" ∨ beds = 0) →
      addCamp st caller name beds resources contact ambulance now
        = (st, Except.error nameBedsRequiredErr)) ∧
    (∀ volunteer, caller.role = "volunteer" → name ≠ "" → beds ≠ 0 →
      st.users.find? (fun u => u.id == caller.id) = some volunteer →
      ∃ camp, addCamp st caller name beds resources contact ambulance now
          = ({ st with camps := st.camps ++ [camp] }, Except.ok camp) ∧
        camp.beds = beds ∧ camp.originalBeds = beds ∧ camp.type = "volunteer-added" ∧
        camp.name = name ∧ camp.addedBy = volunteer.name ∧
        camp.id = newCampId st.camps) ∧
    ((∃ u ∈ st.users, u.id = caller.id) →
      (∃ camp, (addCamp st caller name beds resources contact ambulance now).2
          = Except.ok camp) ∨
      (addCamp st caller name beds resources contact ambulance now).2
        = Except.error onlyVolunteersAddErr ∨
      (addCamp st caller name beds resources contact ambulance now).2
        = Except.error nameBedsRequiredErr) := by
  refine ⟨?_, ?_, ?_, ?_⟩
  · intro hrole
    simp only [addCamp, if_pos hrole]
  · intro hrole hval
    have hrole' : ¬ caller.role ≠ "volunteer" := by simp [hrole]
    simp only [addCamp, if_neg hrole', if_pos hval]
  · intro volunteer hrole hname hbeds hfind
    have hrole' : ¬ caller.role ≠ "volunteer" := by simp [hrole]
    have hval : ¬ (name = "" ∨ beds = 0) := by
      push_neg
      exact ⟨hname, hbeds⟩
    refine ⟨⟨newCampId st.camps, name, beds, beds, parseResources resources, contact,
      (if ambulance = "" then "No" else ambulance), "volunteer-added",
      volunteer.name, now⟩, ?_, rfl, rfl, rfl, rfl, rfl, rfl⟩
    simp only [addCamp, if_neg hrole', if_neg hval, hfind]
  · intro hreg
    by_cases hrole : caller.role ≠ "volunteer"
    · right
      left
      simp only [addCamp, if_pos hrole]
    by_cases hval : name = "" ∨ beds = 0
    · right
      right
      simp only [addCamp, if_neg hrole, if_pos hval]
    rcases find_user_some_of_reg hreg with ⟨u, hu⟩
    left
    exact ⟨⟨newCampId st.camps, name, beds, beds, parseResources resources, contact,
      (if ambulance = "" then "No" else ambulance), "volunteer-added", u.name, now⟩,
      by simp only [addCamp, if_neg hrole, if_neg hval, hu]⟩

/-- Witness for C8: Vera adds a 4-bed camp from the base state. -/
theorem C8_witness :
    ∃ camp, addCamp baseState veraAuth "Annex" 4 "Food, Water" "" "" "t1"
        = ({ baseState with camps := baseState.camps ++ [camp] }, Except.ok camp) ∧
      camp.beds = 4 ∧ camp.originalBeds = 4 ∧ camp.type = "volunteer-added" ∧
      camp.name = "Annex" ∧ camp.addedBy = veraUser.name ∧
      camp.id = newCampId baseState.camps :=
  (C8_addCamp_amended baseState veraAuth "Annex" 4 "Food, Water" "" "" "t1").2.2.1
    veraUser rfl (by decide) (by decide) rfl

/-- Claim C9 fails on the code: the handler assigns
`selections.length + 1` as the new selection id, which collides with an
existing id after a cancellation.  From the seeded base state: Rina
selects (id 1), Ravi selects (id 2), Rina cancels, Rema selects; the
new selection again gets id 2, so two active selections share id 2. -/
theorem C9_duplicate_selection_id :
    ((runOps baseState
        [Op.select rinaAuth 1 "t1", Op.select raviAuth 1 "t2",
         Op.cancel rinaAuth, Op.select remaAuth 1 "t3"]).selections.map
          Selection.id) = [2, 2] ∧
    ¬ ((runOps baseState
        [Op.select rinaAuth 1 "t1", Op.select raviAuth 1 "t2",
         Op.cancel rinaAuth, Op.select remaAuth 1 "t3"]).selections.map
          Selection.id).Nodup := by
  constructor
  · rfl
  · decide

/-- Removing a key from an object leaves no pair with that key. -/
theorem objRemove_key_not_mem (key : String) (obj : List (String × String)) :
    ∀ p ∈ objRemove key obj, p.1 ≠ key := by
  intro p hp
  rw [objRemove, List.mem_filter] at hp
  simpa using hp.2

/-- Claim C10 (confirmed): whenever Register, Login or Verify succeeds,
the user object placed in the response equals the stored user record
with the `password` key removed, and no `password` key occurs in it. -/
theorem C10_password_never_returned :
    (∀ (st : DBState) (name email password role : String) (age : Int)
       (contact address needs skills availability hashedPassword now : String)
       (st' : DBState) (obj : List (String × String)),
      register st name email password role age contact address needs skills
          availability hashedPassword now = (st', Except.ok obj) →
      ∃ u, st'.users = st.users ++ [u] ∧ u.password = hashedPassword ∧
        obj = objRemove "password" (userToObj u) ∧ ∀ p ∈ obj, p.1 ≠ "password") ∧
    (∀ (st : DBState) (email password : String) (compare : String → String → Bool)
       (st' : DBState) (obj : List (String × String)),
      login st email password compare = (st', Except.ok obj) →
      ∃ u, st.users.find? (fun v => v.email == email) = some u ∧
        obj = objRemove "password" (userToObj u) ∧ ∀ p ∈ obj, p.1 ≠ "password") ∧
    (∀ (st : DBState) (caller : AuthUser) (obj : List (String × String)),
      verify st caller = Except.ok obj →
      ∃ u, st.users.find? (fun v => v.id == caller.id) = some u ∧
        obj = objRemove "password" (userToObj u) ∧ ∀ p ∈ obj, p.1 ≠ "password") := by
  refine ⟨?_, ?_, ?_⟩
  · intro st name email password role age contact address needs skills availability
      hashedPassword now st' obj h
    by_cases hmiss : name = "" ∨ email = "" ∨ password = "" ∨ role = ""
    · simp only [register, if_pos hmiss] at h
      have h2 := congrArg Prod.snd h
      simp only at h2
      exact Except.noConfusion h2
    by_cases hrole : ¬ (role = "volunteer" ∨ role = "refugee")
    · simp only [register, if_neg hmiss, if_pos hrole] at h
      have h2 := congrArg Prod.snd h
      simp only at h2
      exact Except.noConfusion h2
    by_cases hdup : (st.users.find? (fun u => u.email == email)).isSome = true
    · simp only [register, if_neg hmiss, if_neg hrole, if_pos hdup] at h
      have h2 := congrArg Prod.snd h
      simp only at h2
      exact Except.noConfusion h2
    simp only [register, if_neg hmiss, if_neg hrole, if_neg hdup] at h
    have h1 := congrArg Prod.fst h
    have h2 := congrArg Prod.snd h
    simp only at h1 h2
    injection h2 with h2'
    subst h2'
    subst h1
    exact ⟨⟨st.users.length + 1, name, email, hashedPassword, role, age, contact, now,
      (if role = "refugee" then some address else none),
      (if role = "refugee" then some needs else none),
      (if role = "volunteer" then some skills else none),
      (if role = "volunteer" then some availability else none)⟩,
      rfl, rfl, rfl, objRemove_key_not_mem _ _⟩
  · intro st email password compare st' obj h
    by_cases hmiss : email = "" ∨ password = ""
    · simp only [login, if_pos hmiss] at h
      have h2 := congrArg Prod.snd h
      simp only at h2
      exact Except.noConfusion h2
    cases hfind : st.users.find? (fun v => v.email == email) with
    | none =>
      simp only [login, if_neg hmiss, hfind] at h
      have h2 := congrArg Prod.snd h
      simp only at h2
      exact Except.noConfusion h2
    | some u =>
      by_cases hcmp : ¬ compare password u.password
      · simp only [login, if_neg hmiss, hfind, if_pos hcmp] at h
        have h2 := congrArg Prod.snd h
        simp only at h2
        exact Except.noConfusion h2
      · simp only [login, if_neg hmiss, hfind, if_neg hcmp] at h
        have h2 := congrArg Prod.snd h
        simp only at h2
        injection h2 with h2'
        subst h2'
        exact ⟨u, rfl, rfl, objRemove_key_not_mem _ _⟩
  · intro st caller obj h
    cases hfind : st.users.find? (fun v => v.id == caller.id) with
    | none =>
      simp only [verify, hfind] at h
      exact Except.noConfusion h
    | some u =>
      simp only [verify, hfind] at h
      injection h with h'
      subst h'
      exact ⟨u, rfl, rfl, objRemove_key_not_mem _ _⟩

/-- Witness for C10: registering Rina from the empty-camp state returns
her stored record without the password key. -/
theorem C10_witness :
    ∃ u, (register emptyCampState "Rina" "rina@example.org" "pw" "refugee" 25 "222"
          "addr" "needs" "" "" "hpw" "t0").1.users = emptyCampState.users ++ [u] ∧
      u.password = "hpw" ∧
      objRemove "password" (userToObj (⟨2, "Rina", "rina@example.org", "hpw", "refugee",
          25, "222", "t0", some "addr", some "needs", none, none⟩ : User))
        = objRemove "password" (userToObj u) ∧
      ∀ p ∈ objRemove "password" (userToObj (⟨2, "Rina", "rina@example.org", "hpw",
          "refugee", 25, "222", "t0", some "addr", some "needs", none, none⟩ : User)),
        p.1 ≠ "password" :=
  C10_password_never_returned.1 emptyCampState "Rina" "rina@example.org" "pw" "refugee"
    25 "222" "addr" "needs" "" "" "hpw" "t0"
    (register emptyCampState "Rina" "rina@example.org" "pw" "refugee" 25 "222"
      "addr" "needs" "" "" "hpw" "t0").1
    (objRemove "password" (userToObj (⟨2, "Rina", "rina@example.org", "hpw", "refugee",
      25, "222", "t0", some "addr", some "needs", none, none⟩ : User))) rfl
